import Mathlib

/-!
Verification of the mapSCAD pipeline (jsonscad_builder.py).

Shallow embedding notes:
* Python floats are modelled as rational numbers (ℚ); the claims under
  consideration are exact arithmetic identities.
* GeoJSON property scalars are modelled as numbers or strings.
* In-place mutation of the feature list is modelled by explicit state
  passing.  A loop that raises an exception mid-way leaves the already
  processed prefix mutated and the rest untouched, exactly as the Python
  in-place loops do; each loop model therefore returns the resulting list
  together with an optional error.
* Python `assert` failures (the precondition checks) are modelled as
  stateError values carrying the message from the error_msg table;
  AttributeError / IndexError / TypeError / ZeroDivisionError are the
  remaining runtime errors the code can raise on the modelled paths.
-/

/-- A Point is a list of coordinates (GeoJSON allows more than two,
e.g. an elevation component). -/
abbrev Point := List ℚ

/-- A linear ring: a list of points. -/
abbrev LRing := List Point

/-- A polygon as stored in GeoJSON coordinates: a list of rings,
ring 0 being the exterior boundary. -/
abbrev PolyRings := List LRing

/-- GeoJSON geometry, dispatched on by the code via geometry.type.
Geometries other than Polygon and MultiPolygon are never touched, so only
their tag is recorded. -/
inductive Geometry where
  | polygon (rings : PolyRings)
  | multiPolygon (polys : List PolyRings)
  | other (tag : String)
deriving DecidableEq

/-- A GeoJSON property scalar value. -/
inductive Value where
  | num (q : ℚ)
  | str (s : String)
deriving DecidableEq

/-- A GeoJSON feature: a geometry and a properties mapping
(insertion-ordered, as a Python dict). -/
structure Feature where
  geometry : Geometry
  properties : List (String × Value)
deriving DecidableEq

/-- Runtime errors of the modelled paths.  Python assert failures
(AssertionError with a message from the error_msg table) are stateError. -/
inductive Err where
  | stateError (msg : String)
  | attributeError (missing : String)
  | indexError
  | typeError
  | zeroDivisionError
deriving DecidableEq

/-- error_msg of the source, key emp_feat. -/
def empFeatMsg : String :=
  "features list cannot be empty. Perhaps you forgot to call extract_features()?"

/-- error_msg of the source, key bdata_nf. -/
def bdataNfMsg : String :=
  "bound_data_key_name cannot be empty. Perhaps you forgot to bind data to the model?"

/-- Python dict lookup on a properties mapping. -/
def getProp : List (String × Value) → String → Option Value
  | [], _ => none
  | (k', v) :: rest, k => if k' = k then some v else getProp rest k

/-- Python dict assignment: overwrite in place if the key is present,
otherwise append (insertion order). -/
def setProp : List (String × Value) → String → Value → List (String × Value)
  | [], k, v => [(k, v)]
  | (k', v') :: rest, k, v =>
      if k' = k then (k, v) :: rest else (k', v') :: setProp rest k v

/-- The state of a JsonScadBuilder instance (the fields of __init__ that
the modelled methods read or write; raw_json_data is only used by the
loader, which is out of scope of the claims). -/
structure JsonScadBuilder where
  features : List Feature
  num_features : Nat
  bound_data_key_name : String
  origin : List ℚ
  scale_factor : ℚ
  offset_delta : ℚ
  is_colored : Bool
deriving DecidableEq

/-- The state produced by the constructor __init__. -/
def initState : JsonScadBuilder :=
  { features := []
    num_features := 0
    bound_data_key_name := ""
    origin := []
    scale_factor := 1
    offset_delta := 0
    is_colored := false }

/-- DEFAULT_EXTRUDE_HEIGHT of the source. -/
def DEFAULT_EXTRUDE_HEIGHT : ℚ := 2

/-- COLOR_BANK of the source (the color palette for color preview mode).
Note: write_scad_file refers to it as self.color_bank, a name that does
not exist on the class, so the emitter can never actually reach it. -/
def COLOR_BANK : List String :=
  ["Red", "Green", "Blue", "Brown", "Purple", "Gold", "Orange"]

/-- The method _transform_helper: builds the two-element list
[scale_factor * (pair[0] - origin[0]), scale_factor * (pair[1] - origin[1])].
Accessing a missing index of pair or origin is an IndexError.  Components
of pair beyond the first two are ignored. -/
def transform_helper (sf : ℚ) (origin pair : Point) : Except Err Point :=
  match pair, origin with
  | x :: y :: _, ox :: oy :: _ => .ok [sf * (x - ox), sf * (y - oy)]
  | _, _ => .error .indexError

/-- list(map(self._transform_helper, coords)): the list is forced element
by element, the first error propagates, and the ring is only written back
after the whole list has been built, so an error leaves it unchanged. -/
def transformRing (sf : ℚ) (origin : List ℚ) : LRing → Except Err LRing
  | [] => .ok []
  | p :: ps => do
      let p' ← transform_helper sf origin p
      let ps' ← transformRing sf origin ps
      .ok (p' :: ps')

/-- The body of the transform loop for one feature.  The Polygon branch
maps _transform_helper over ring 0.  The MultiPolygon branch of the source
calls self.transform_helper, an attribute that does not exist (the helper
is named _transform_helper), so any MultiPolygon with at least one
constituent polygon raises AttributeError before mutating anything
(polygon[0] is read first, so an empty constituent raises IndexError).
Other geometry types fall through both if-branches untouched. -/
def transformFeature (sf : ℚ) (origin : List ℚ) (f : Feature) : Except Err Feature :=
  match f.geometry with
  | .polygon rings =>
      match rings with
      | [] => .error .indexError
      | r0 :: rest =>
          (transformRing sf origin r0).map
            (fun r0' => { f with geometry := .polygon (r0' :: rest) })
  | .multiPolygon polys =>
      match polys with
      | [] => .ok f
      | p :: _ =>
          match p with
          | [] => .error .indexError
          | _ :: _ => .error (.attributeError "transform_helper")
  | .other _ => .ok f

/-- The transform loop over the feature list, with in-place semantics:
when a feature raises, the already processed features keep their new
values and the remaining ones are untouched. -/
def transformLoop (sf : ℚ) (origin : List ℚ) : List Feature → List Feature × Option Err
  | [] => ([], none)
  | f :: fs =>
      match transformFeature sf origin f with
      | .ok f' =>
          let r := transformLoop sf origin fs
          (f' :: r.1, r.2)
      | .error e => (f :: fs, some e)

/-- The method transform(origin, scale_factor): stores origin and
scale_factor on the instance, then asserts that features is non-empty,
then runs the loop. -/
def transform (st : JsonScadBuilder) (origin : List ℚ) (sf : ℚ) :
    JsonScadBuilder × Option Err :=
  let st1 := { st with origin := origin, scale_factor := sf }
  if st1.features = [] then (st1, some (.stateError empFeatMsg))
  else
    let r := transformLoop sf origin st1.features
    ({ st1 with features := r.1 }, r.2)

example :
    transform { initState with
        features := [⟨.polygon [[[3, 4], [5, 6]]], []⟩] } [1, 2] 2 =
      ({ initState with
          features := [⟨.polygon [[[4, 4], [8, 8]]], []⟩],
          origin := [1, 2], scale_factor := 2 }, none) := by
  norm_num [transform, transformLoop, transformFeature, transformRing,
    transform_helper, initState, List.mapM, List.mapM.loop,
    Except.map, Except.instMonad, Except.bind, Except.pure, bind, pure]

example :
    (transform { initState with
        features := [⟨.multiPolygon [[[[3, 4]]]], []⟩] } [0, 0] 1).2 =
      some (.attributeError "transform_helper") := by
  norm_num [transform, transformLoop, transformFeature, initState]

/-! ## Specification predicates for the Transformer claims -/

/-- A transformed point as the code computes it: components beyond the
first two are dropped and no additive offset appears. -/
def ptSpec (sf o0 o1 : ℚ) (p p' : Point) : Prop :=
  ∃ x y t, p = x :: y :: t ∧ p' = [sf * (x - o0), sf * (y - o1)]

/-- A Polygon feature after transform: ring 0 pointwise transformed,
interior rings and properties untouched. -/
def polySpec (sf o0 o1 : ℚ) (f f' : Feature) : Prop :=
  ∃ r0 rest r0', f.geometry = .polygon (r0 :: rest) ∧
    f'.geometry = .polygon (r0' :: rest) ∧
    f'.properties = f.properties ∧
    List.Forall₂ (ptSpec sf o0 o1) r0 r0'

/-- Boolean check: the feature is a Polygon with a nonempty ring list
whose exterior ring has only points with at least two components. -/
def allPoly2D (f : Feature) : Bool :=
  match f.geometry with
  | .polygon (r0 :: _) => r0.all (fun p => 2 ≤ p.length)
  | _ => false

/-- What transform actually does: succeeds on Polygon-only feature lists,
applying scale * (coord - origin) with no seam offset, storing origin and
scale_factor on the instance; any MultiPolygon with a nonempty
constituent makes the call fail with AttributeError (misnamed helper). -/
def C1Spec (st : JsonScadBuilder) (o0 o1 sf : ℚ) : Prop :=
  (transform st [o0, o1] sf).2 = none ∧
  (transform st [o0, o1] sf).1.origin = [o0, o1] ∧
  (transform st [o0, o1] sf).1.scale_factor = sf ∧
  List.Forall₂ (polySpec sf o0 o1) st.features
    (transform st [o0, o1] sf).1.features ∧
  (∀ (st2 : JsonScadBuilder) (props : List (String × Value))
      (r : LRing) (rs : PolyRings) (ps : List PolyRings),
    st2.features = [⟨.multiPolygon ((r :: rs) :: ps), props⟩] →
    (transform st2 [o0, o1] sf).2 = some (.attributeError "transform_helper"))

/-- Mapping the transform helper over a ring of points that all have at
least two components succeeds and transforms pointwise. -/
theorem transformRing_ok (sf o0 o1 : ℚ) (r : LRing)
    (h : ∀ p ∈ r, 2 ≤ p.length) :
    ∃ r', transformRing sf [o0, o1] r = .ok r' ∧
      List.Forall₂ (ptSpec sf o0 o1) r r' := by
  induction r with
  | nil => exact ⟨[], rfl, List.Forall₂.nil⟩
  | cons p r ih =>
      obtain ⟨r', hr', hrel⟩ := ih (fun q hq => h q (List.mem_cons_of_mem _ hq))
      have hp := h p (List.mem_cons_self _ _)
      match p, hp with
      | x :: y :: t, _ =>
          refine ⟨[sf * (x - o0), sf * (y - o1)] :: r', ?_, ?_⟩
          · simp only [transformRing, transform_helper, hr']
            rfl
          · exact List.Forall₂.cons ⟨x, y, t, rfl, rfl⟩ hrel

/-- The transform loop over a list of well-formed Polygon features
succeeds and transforms each feature according to polySpec. -/
theorem transformLoop_ok (sf o0 o1 : ℚ) (fs : List Feature)
    (h : ∀ f ∈ fs, allPoly2D f = true) :
    (transformLoop sf [o0, o1] fs).2 = none ∧
    List.Forall₂ (polySpec sf o0 o1) fs (transformLoop sf [o0, o1] fs).1 := by
  induction fs with
  | nil => exact ⟨rfl, List.Forall₂.nil⟩
  | cons f fs ih =>
      obtain ⟨ihe, ihrel⟩ := ih (fun g hg => h g (List.mem_cons_of_mem _ hg))
      have hf := h f (List.mem_cons_self _ _)
      unfold allPoly2D at hf
      match hg : f.geometry, hf with
      | .polygon (r0 :: rest), hf =>
          have h2 : ∀ p ∈ r0, 2 ≤ p.length := by
            intro p hp
            simpa using List.all_eq_true.mp hf p hp
          obtain ⟨r0', hr0', hrel0⟩ := transformRing_ok sf o0 o1 r0 h2
          have hstep : transformFeature sf [o0, o1] f =
              .ok { f with geometry := .polygon (r0' :: rest) } := by
            simp only [transformFeature, hg, hr0']
            rfl
          constructor
          · simp only [transformLoop, hstep]
            exact ihe
          · simp only [transformLoop, hstep]
            exact List.Forall₂.cons
              ⟨r0, rest, r0', hg, rfl, rfl, hrel0⟩ ihrel

/-- Claim C1 (amended): per point the Transformer computes
scaleFactor * (coordinate - origin component) with NO additive seam
offset; it stores origin and scale_factor; and it fails with
AttributeError on any MultiPolygon with a nonempty constituent polygon,
because the loop names the helper transform_helper instead of
_transform_helper. -/
theorem C1_transform (st : JsonScadBuilder) (o0 o1 sf : ℚ)
    (h1 : st.features ≠ [])
    (h2 : st.features.all allPoly2D = true) :
    C1Spec st o0 o1 sf := by
  have hall : ∀ f ∈ st.features, allPoly2D f = true := List.all_eq_true.mp h2
  obtain ⟨he, hrel⟩ := transformLoop_ok sf o0 o1 st.features hall
  refine ⟨?_, ?_, ?_, ?_, ?_⟩
  · simp only [transform, h1, if_neg h1]
    exact he
  · simp [transform, h1]
  · simp [transform, h1]
  · simp only [transform, h1, if_neg h1]
    exact hrel
  · intro st2 props r rs ps hfeat
    have hne : st2.features ≠ [] := by rw [hfeat]; simp
    simp only [transform, hfeat]
    simp [transformLoop, transformFeature]

/-- A single-Polygon state (one point at the origin) whose seam offset
field has been set to 1, as by offset(1). -/
def stC1x : JsonScadBuilder :=
  { initState with
      features := [⟨.polygon [[[0, 0]]], []⟩],
      offset_delta := 1 }

/-- The same but with a MultiPolygon feature. -/
def stC1mx : JsonScadBuilder :=
  { initState with
      features := [⟨.multiPolygon [[[[0, 0]]]], []⟩],
      offset_delta := 1 }

/-- Claim C1 as stated is false: with seamOffset (offset_delta) = 1,
scaleFactor 1 and origin [0,0], the point (0,0) stays (0,0) — the claimed
value (1,1) = (scale*(x-ox)+seam, scale*(y-oy)+seam) is never produced;
and on a MultiPolygon the Transformer does not transform at all but fails
with AttributeError. -/
theorem C1_counterexample :
    (transform stC1x [0, 0] 1).1.features = [⟨.polygon [[[0, 0]]], []⟩] ∧
    (transform stC1x [0, 0] 1).1.features ≠
      [⟨.polygon [[[1 * (0 - 0) + stC1x.offset_delta,
                    1 * (0 - 0) + stC1x.offset_delta]]], []⟩] ∧
    (transform stC1mx [0, 0] 1).2 = some (.attributeError "transform_helper") := by
  refine ⟨?_, ?_, ?_⟩
  · norm_num [transform, transformLoop, transformFeature, transformRing,
      transform_helper, stC1x, initState, Except.map, Except.instMonad,
      Except.bind, Except.pure, bind, pure]
  · norm_num [transform, transformLoop, transformFeature, transformRing,
      transform_helper, stC1x, initState, Except.map, Except.instMonad,
      Except.bind, Except.pure, bind, pure]
  · norm_num [transform, transformLoop, transformFeature, stC1mx, initState]

/-- Concrete instance for the amended C1 theorem. -/
def stC1w : JsonScadBuilder :=
  { initState with
      features := [⟨.polygon [[[1, 2], [3, 4]]], [("n", .num 7)]⟩] }

/-- Witness for C1_transform at a concrete state. -/
theorem C1_transform_witness :
    (stC1w.features ≠ [] ∧ stC1w.features.all allPoly2D = true) ∧
    C1Spec stC1w 0 0 2 :=
  ⟨⟨by decide, by decide⟩, C1_transform stC1w 0 0 2 (by decide) (by decide)⟩

/-- Claim C7: the identity parameters leave a Polygon unchanged, but a
MultiPolygon feature makes transform raise AttributeError (misnamed
helper transform_helper) instead of leaving its coordinates unchanged
and succeeding. -/
theorem C7_identity_eval :
    (transform { initState with
        features := [⟨.polygon [[[0, 0], [2, 3]]], [("a", .str "x")]⟩] } [0, 0] 1) =
      ({ initState with
          features := [⟨.polygon [[[0, 0], [2, 3]]], [("a", .str "x")]⟩],
          origin := [0, 0], scale_factor := 1 }, none) ∧
    (transform { initState with
        features := [⟨.multiPolygon [[[[0, 0], [1, 1]]]], []⟩] } [0, 0] 1) =
      ({ initState with
          features := [⟨.multiPolygon [[[[0, 0], [1, 1]]]], []⟩],
          origin := [0, 0], scale_factor := 1 },
        some (.attributeError "transform_helper")) := by
  constructor
  · norm_num [transform, transformLoop, transformFeature, transformRing,
      transform_helper, initState, Except.map, Except.instMonad,
      Except.bind, Except.pure, bind, pure]
  · norm_num [transform, transformLoop, transformFeature, initState]

/-- Every member of the right list of a Forall₂ is related to some
member of the left list. -/
theorem forallTwo_mem_right {α β : Type} {R : α → β → Prop}
    {l : List α} {m : List β} (h : List.Forall₂ R l m) :
    ∀ b ∈ m, ∃ a, R a b := by
  induction h with
  | nil => intro b hb; cases hb
  | cons hab _ ih =>
      intro b hb
      rcases List.mem_cons.mp hb with h1 | h2
      · exact ⟨_, h1 ▸ hab⟩
      · exact ih b h2

/-- After a successful transform of a ring, every output point has
exactly two components and the point count is preserved. -/
def C10Spec (sf o0 o1 : ℚ) (r : LRing) : Prop :=
  ∃ r', transformRing sf [o0, o1] r = .ok r' ∧
    r'.length = r.length ∧ ∀ p ∈ r', p.length = 2

/-- Claim C10: the helper keeps only the first two components of a point
(any further components such as a GeoJSON elevation are dropped), and a
ring whose points all have at least two components transforms to a ring
of the same length whose points all have exactly two components. -/
theorem C10_point_dims (sf o0 o1 x y : ℚ) (t : List ℚ) (r : LRing)
    (h : r.all (fun p => 2 ≤ p.length) = true) :
    transform_helper sf [o0, o1] (x :: y :: t) =
      .ok [sf * (x - o0), sf * (y - o1)] ∧
    C10Spec sf o0 o1 r := by
  refine ⟨rfl, ?_⟩
  have h2 : ∀ p ∈ r, 2 ≤ p.length := by
    intro p hp
    simpa using List.all_eq_true.mp h p hp
  obtain ⟨r', hr', hrel⟩ := transformRing_ok sf o0 o1 r h2
  refine ⟨r', hr', (List.Forall₂.length_eq hrel).symm, ?_⟩
  intro p' hp'
  obtain ⟨p, hps⟩ := forallTwo_mem_right hrel p' hp'
  obtain ⟨xx, yy, tt, -, hpt⟩ := hps
  rw [hpt]
  rfl

/-- Witness for C10_point_dims: a 3D point [1, 2, 3] is cut down to two
components. -/
theorem C10_point_dims_witness :
    (([[1, 2, 3]] : LRing).all (fun p => 2 ≤ p.length) = true) ∧
    (transform_helper 1 [0, 0] ([1, 2, 3] : Point) =
      .ok [1 * ((1 : ℚ) - 0), 1 * ((2 : ℚ) - 0)] ∧
    C10Spec 1 0 0 ([[1, 2, 3]] : LRing)) :=
  ⟨by decide, C10_point_dims 1 0 0 1 2 [3] [[1, 2, 3]] (by decide)⟩

/-! ## Data binding and height scaling -/

/-- The zip loop of bind_data: pairs features with data values in order;
the shorter side ends the loop, extra entries on either side are
ignored. -/
def bindLoop (key : String) : List Feature → List Value → List Feature
  | fs, [] => fs
  | [], _ :: _ => []
  | f :: fs, v :: vs =>
      { f with properties := setProp f.properties key v } :: bindLoop key fs vs

/-- The method bind_data(data_key_name, data): sets bound_data_key_name
BEFORE asserting that features is non-empty, then zips. -/
def bind_data (st : JsonScadBuilder) (key : String) (data : List Value) :
    JsonScadBuilder × Option Err :=
  let st1 := { st with bound_data_key_name := key }
  if st1.features = [] then (st1, some (.stateError empFeatMsg))
  else ({ st1 with features := bindLoop key st1.features data }, none)

/-- The inner search loop of bind_data_by_identifier for one datum:
linear scan for the first feature whose properties contain id_key with
value equal to the datum identifier; assign and break on the first match;
returns the updated list and whether a match was found. -/
def bindOne (idKey key : String) (idv v : Value) : List Feature → List Feature × Bool
  | [] => ([], false)
  | f :: fs =>
      if getProp f.properties idKey = some idv then
        ({ f with properties := setProp f.properties key v } :: fs, true)
      else
        let r := bindOne idKey key idv v fs
        (f :: r.1, r.2)

/-- The outer loop of bind_data_by_identifier: scans independently per
datum, counting matches. -/
def bindAllLoop (idKey key : String) : List (Value × Value) → List Feature → List Feature × Nat
  | [], fs => (fs, 0)
  | d :: ds, fs =>
      let r := bindOne idKey key d.1 d.2 fs
      let rest := bindAllLoop idKey key ds r.1
      (rest.1, (if r.2 then 1 else 0) + rest.2)

/-- The method bind_data_by_identifier(data_key_name, data, id_key): sets
bound_data_key_name BEFORE asserting that features is non-empty, then
runs the search loops; a datum with no match is silently skipped. -/
def bind_data_by_identifier (st : JsonScadBuilder) (key : String)
    (data : List (Value × Value)) (idKey : String) :
    JsonScadBuilder × Option Err :=
  let st1 := { st with bound_data_key_name := key }
  if st1.features = [] then (st1, some (.stateError empFeatMsg))
  else ({ st1 with features := (bindAllLoop idKey key data st1.features).1 }, none)

/-- The scaling loop of scale_heights, with in-place semantics.  For a
feature whose properties contain the bound key: subtracting domain[0]
from a non-numeric value is a TypeError; dividing by a zero domain_diff
is a ZeroDivisionError; otherwise the property is overwritten with
range[0] + ((value - domain[0]) / domain_diff) * range_diff. -/
def scaleLoop (key : String) (d0 dd r0 rd : ℚ) : List Feature → List Feature × Option Err
  | [] => ([], none)
  | f :: fs =>
      match getProp f.properties key with
      | none =>
          let r := scaleLoop key d0 dd r0 rd fs
          (f :: r.1, r.2)
      | some (.str _) => (f :: fs, some .typeError)
      | some (.num v) =>
          if dd = 0 then (f :: fs, some .zeroDivisionError)
          else
            let w := Value.num (r0 + ((v - d0) / dd) * rd)
            let f' := { f with properties := setProp f.properties key w }
            let r := scaleLoop key d0 dd r0 rd fs
            (f' :: r.1, r.2)

/-- The method scale_heights(domain, range): computes domain_diff and
range_diff, asserts features non-empty, asserts bound_data_key_name
non-empty, then scales every feature that contains the bound key and
leaves the others untouched. -/
def scale_heights (st : JsonScadBuilder) (domain rng : ℚ × ℚ) :
    JsonScadBuilder × Option Err :=
  let dd := domain.2 - domain.1
  let rd := rng.2 - rng.1
  if st.features = [] then (st, some (.stateError empFeatMsg))
  else if st.bound_data_key_name = "" then (st, some (.stateError bdataNfMsg))
  else
    let r := scaleLoop st.bound_data_key_name domain.1 dd rng.1 rd st.features
    ({ st with features := r.1 }, r.2)

example :
    scale_heights { initState with
        features := [⟨.polygon [[[0, 0]]], [("pop", .num 5)]⟩],
        bound_data_key_name := "pop" } (0, 10) (2, 20) =
      ({ initState with
          features := [⟨.polygon [[[0, 0]]], [("pop", .num 11)]⟩],
          bound_data_key_name := "pop" }, none) := by
  norm_num [scale_heights, scaleLoop, getProp, setProp, initState]
  decide

/-! ## Simplifier (the rdp routine is an external collaborator and is
abstracted as a parameter reduce, per the contract of section 4.2) -/

/-- The inner loop of simplify for a MultiPolygon: replaces ring 0 of
each constituent polygon with its reduced version, in place; reading
ring 0 of an empty constituent is an IndexError that leaves the rest
untouched. -/
def simplifyPolys (reduce : LRing → LRing) : List PolyRings → List PolyRings × Option Err
  | [] => ([], none)
  | p :: ps =>
      match p with
      | [] => (p :: ps, some .indexError)
      | r0 :: rest =>
          let r := simplifyPolys reduce ps
          ((reduce r0 :: rest) :: r.1, r.2)

/-- The body of the simplify loop for one feature: Polygon replaces
ring 0, MultiPolygon replaces ring 0 of every constituent, any other
geometry tag is passed through untouched. -/
def simplifyFeature (reduce : LRing → LRing) (f : Feature) : Feature × Option Err :=
  match f.geometry with
  | .polygon rings =>
      match rings with
      | [] => (f, some .indexError)
      | r0 :: rest => ({ f with geometry := .polygon (reduce r0 :: rest) }, none)
  | .multiPolygon polys =>
      let r := simplifyPolys reduce polys
      ({ f with geometry := .multiPolygon r.1 }, r.2)
  | .other _ => (f, none)

/-- The simplify loop over the feature list, with in-place semantics. -/
def simplifyLoop (reduce : LRing → LRing) : List Feature → List Feature × Option Err
  | [] => ([], none)
  | f :: fs =>
      let r := simplifyFeature reduce f
      match r.2 with
      | some e => (r.1 :: fs, some e)
      | none =>
          let rr := simplifyLoop reduce fs
          (r.1 :: rr.1, rr.2)

/-- The method simplify(eps): asserts that features is non-empty, then
runs rdp (here: reduce, the external point-reduction routine partially
applied to the tolerance) on ring 0 of every polygon. -/
def simplify (st : JsonScadBuilder) (reduce : LRing → LRing) :
    JsonScadBuilder × Option Err :=
  if st.features = [] then (st, some (.stateError empFeatMsg))
  else
    let r := simplifyLoop reduce st.features
    ({ st with features := r.1 }, r.2)

/-! ## Emitter (write_scad_file) -/

/-- One emitted block of OpenSCAD code: the sequential identifier index
(points_idx), the ring-0 coordinates of the shape, and the extrusion
height argument. -/
structure Block where
  idx : Nat
  ring : LRing
  height : Value
deriving DecidableEq

/-- The extrusion height of a feature as write_scad_file selects it:
properties[bound_data_key_name] if the key name is set and present,
otherwise DEFAULT_EXTRUDE_HEIGHT. -/
def heightFor (key : String) (props : List (String × Value)) : Value :=
  if key = "" then .num DEFAULT_EXTRUDE_HEIGHT
  else
    match getProp props key with
    | some v => v
    | none => .num DEFAULT_EXTRUDE_HEIGHT

/-- Emission of one polygon block.  Reading ring 0 of an empty ring list
is an IndexError.  In color preview mode the source evaluates
self.color_bank, an attribute that does not exist (the constant is
COLOR_BANK), so color mode raises AttributeError before random.choice is
ever called; emission is therefore deterministic on every path that
runs to completion. -/
def emitShape (isColored : Bool) (key : String) (props : List (String × Value))
    (count : Nat) (rings : PolyRings) : Except Err Block :=
  match rings with
  | [] => .error .indexError
  | r0 :: _ =>
      if isColored then .error (.attributeError "color_bank")
      else .ok { idx := count, ring := r0, height := heightFor key props }

/-- Emission of the constituent polygons of a MultiPolygon, threading
the block counter. -/
def emitPolys (isColored : Bool) (key : String) (props : List (String × Value)) :
    List PolyRings → Nat → Except Err (List Block × Nat)
  | [], c => .ok ([], c)
  | p :: ps, c => do
      let b ← emitShape isColored key props c p
      let r ← emitPolys isColored key props ps (c + 1)
      .ok (b :: r.1, r.2)

/-- Emission for one feature: one block per Polygon, one per constituent
polygon of a MultiPolygon, nothing for any other geometry tag. -/
def emitFeature (isColored : Bool) (key : String) (c : Nat) (f : Feature) :
    Except Err (List Block × Nat) :=
  match f.geometry with
  | .polygon rings => do
      let b ← emitShape isColored key f.properties c rings
      .ok ([b], c + 1)
  | .multiPolygon polys => emitPolys isColored key f.properties polys c
  | .other _ => .ok ([], c)

/-- The emission loop over all features, threading the block counter
that starts at 0. -/
def emitList (isColored : Bool) (key : String) : List Feature → Nat → Except Err (List Block)
  | [], _ => .ok []
  | f :: fs, c => do
      let r ← emitFeature isColored key c f
      let rest ← emitList isColored key fs r.2
      .ok (r.1 ++ rest)

/-- The block sequence produced by write_scad_file: asserts features
non-empty, then walks the features. -/
def emitBlocks (st : JsonScadBuilder) : Except Err (List Block) :=
  if st.features = [] then .error (.stateError empFeatMsg)
  else emitList st.is_colored st.bound_data_key_name st.features 0

/-- Python str() of a height value. -/
def valString : Value → String
  | .num q => toString q
  | .str s => s

/-- Python str() of a point (rendering rationals instead of floats). -/
def pointString (p : Point) : String :=
  "[" ++ String.intercalate ", " (p.map toString) ++ "]"

/-- Python str() of a ring. -/
def ringString (r : LRing) : String :=
  "[" ++ String.intercalate ", " (r.map pointString) ++ "]"

/-- The code text of one block, exactly the concatenation order of the
source: points assignment, linear_extrude, optional offset, polygon. -/
def renderBlock (offsetD : ℚ) (b : Block) : String :=
  "points_" ++ toString b.idx ++ "= " ++ ringString b.ring ++ ";\n" ++
  "linear_extrude(height=" ++ valString b.height ++ ")\n" ++
  (if offsetD = 0 then "" else "offset(" ++ toString offsetD ++ ")\n") ++
  "polygon(points_" ++ toString b.idx ++ ");\n"

/-- The method write_scad_file(filepath): the generated code text (the
file write itself is I/O and out of scope). -/
def write_scad_file (st : JsonScadBuilder) : Except Err String :=
  (emitBlocks st).map (fun bs => String.join (bs.map (renderBlock st.offset_delta)))

/-! ## Height Scaler claims -/

/-- Boolean check: the bound-key value of a feature, when present, is
numeric (the documented invariant of the data model). -/
def numBound (key : String) (f : Feature) : Bool :=
  match getProp f.properties key with
  | some (.str _) => false
  | _ => true

/-- On a zero-width domain, the scaling loop stops at the first feature
that contains the bound key with a ZeroDivisionError and mutates
nothing. -/
theorem scaleLoop_zero_dd (key : String) (d0 r0 rd : ℚ) (fs : List Feature)
    (hnum : ∀ f ∈ fs, numBound key f = true)
    (hex : ∃ f ∈ fs, (getProp f.properties key).isSome = true) :
    scaleLoop key d0 0 r0 rd fs = (fs, some .zeroDivisionError) := by
  induction fs with
  | nil => obtain ⟨f, hf, -⟩ := hex; cases hf
  | cons f fs ih =>
      have hf := hnum f (List.mem_cons_self _ _)
      unfold numBound at hf
      match hp : getProp f.properties key, hf with
      | none, _ =>
          have hex' : ∃ g ∈ fs, (getProp g.properties key).isSome = true := by
            obtain ⟨g, hg, hgs⟩ := hex
            rcases List.mem_cons.mp hg with rfl | hg'
            · rw [hp] at hgs; cases hgs
            · exact ⟨g, hg', hgs⟩
          have := ih (fun g hg => hnum g (List.mem_cons_of_mem _ hg)) hex'
          simp only [scaleLoop, hp, this]
      | some (.num v), _ =>
          simp [scaleLoop, hp]

/-- Claim C2: calling scale_heights with a zero-width domain on a state
whose bound key is set, whose bound values are numeric, and where some
feature carries the bound key, surfaces the division-by-zero condition
as an error and mutates nothing (no silent inf/NaN heights). -/
def C2Spec (st : JsonScadBuilder) (a rmin rmax : ℚ) : Prop :=
  scale_heights st (a, a) (rmin, rmax) = (st, some .zeroDivisionError)

/-- Claim C2: a zero-width domain [a, a] makes scale_heights raise the
division-by-zero error at the first feature carrying the bound key,
leaving the state untouched. -/
theorem C2_zero_width_domain (st : JsonScadBuilder) (a rmin rmax : ℚ)
    (hkey : st.bound_data_key_name ≠ "")
    (hnum : st.features.all (numBound st.bound_data_key_name) = true)
    (hex : st.features.any
      (fun f => (getProp f.properties st.bound_data_key_name).isSome) = true) :
    C2Spec st a rmin rmax := by
  obtain ⟨f, hf, hfs⟩ := List.any_eq_true.mp hex
  have hne : st.features ≠ [] := by
    intro h; rw [h] at hf; cases hf
  have hloop := scaleLoop_zero_dd st.bound_data_key_name a rmin (rmax - rmin)
    st.features (fun g hg => List.all_eq_true.mp hnum g hg) ⟨f, hf, hfs⟩
  unfold C2Spec scale_heights
  rw [if_neg hne, if_neg hkey]
  have hzero : a - a = 0 := sub_self a
  rw [hzero, hloop]

/-- Concrete zero-width-domain state for the C2 witness. -/
def stC2w : JsonScadBuilder :=
  { initState with
      features := [⟨.polygon [[[0, 0]]], [("pop", .num 3)]⟩],
      bound_data_key_name := "pop" }

/-- Witness for C2_zero_width_domain at domain [5, 5]. -/
theorem C2_zero_width_domain_witness :
    (stC2w.bound_data_key_name ≠ "" ∧
     stC2w.features.all (numBound stC2w.bound_data_key_name) = true ∧
     stC2w.features.any
       (fun f => (getProp f.properties stC2w.bound_data_key_name).isSome) = true) ∧
    C2Spec stC2w 5 0 10 :=
  ⟨⟨by decide, by decide, by decide⟩,
    C2_zero_width_domain stC2w 5 0 10 (by decide) (by decide) (by decide)⟩

/-- The per-feature effect of scale_heights as the claim states it, with
dmin/dmax and rmin/rmax the domain and range bounds: a feature carrying
the bound key has it overwritten with
rmin + ((value - dmin) / (dmax - dmin)) * (rmax - rmin); a feature
missing the key is untouched. -/
def scaledFeature (key : String) (dmin dmax rmin rmax v : ℚ) (f : Feature) : Feature :=
  let w := Value.num (rmin + ((v - dmin) / (dmax - dmin)) * (rmax - rmin))
  { f with properties := setProp f.properties key w }

/-- Relation between a feature before and after scale_heights. -/
def scaledRel (key : String) (dmin dmax rmin rmax : ℚ) (f f' : Feature) : Prop :=
  match getProp f.properties key with
  | some (.num v) => f' = scaledFeature key dmin dmax rmin rmax v f
  | _ => f' = f

/-- Claim C5 statement: scale_heights succeeds and rewrites exactly the
features carrying the bound key, by the linear formula. -/
def C5Spec (st : JsonScadBuilder) (dmin dmax rmin rmax : ℚ) : Prop :=
  (scale_heights st (dmin, dmax) (rmin, rmax)).2 = none ∧
  List.Forall₂ (scaledRel st.bound_data_key_name dmin dmax rmin rmax)
    st.features (scale_heights st (dmin, dmax) (rmin, rmax)).1.features

/-- With a non-degenerate domain and numeric bound values the scaling
loop succeeds and relates input to output pointwise. -/
theorem scaleLoop_ok (key : String) (dmin dmax rmin rmax : ℚ)
    (hdd : dmax - dmin ≠ 0) (fs : List Feature)
    (hnum : ∀ f ∈ fs, numBound key f = true) :
    (scaleLoop key dmin (dmax - dmin) rmin (rmax - rmin) fs).2 = none ∧
    List.Forall₂ (scaledRel key dmin dmax rmin rmax) fs
      (scaleLoop key dmin (dmax - dmin) rmin (rmax - rmin) fs).1 := by
  induction fs with
  | nil => exact ⟨rfl, List.Forall₂.nil⟩
  | cons f fs ih =>
      obtain ⟨ihe, ihrel⟩ := ih (fun g hg => hnum g (List.mem_cons_of_mem _ hg))
      have hf := hnum f (List.mem_cons_self _ _)
      unfold numBound at hf
      match hp : getProp f.properties key, hf with
      | none, _ =>
          refine ⟨?_, ?_⟩
          · simp only [scaleLoop, hp]; exact ihe
          · simp only [scaleLoop, hp]
            exact List.Forall₂.cons (by simp [scaledRel, scaledFeature, hp]) ihrel
      | some (.num v), _ =>
          refine ⟨?_, ?_⟩
          · simp only [scaleLoop, hp, if_neg hdd]; exact ihe
          · simp only [scaleLoop, hp, if_neg hdd]
            exact List.Forall₂.cons (by simp [scaledRel, scaledFeature, hp]) ihrel

/-- Claim C5: with the bound key set, a non-degenerate domain and
numeric bound values, scale_heights overwrites the bound property of
every feature containing the key with
rmin + ((value - dmin) / (dmax - dmin)) * (rmax - rmin), and leaves
features missing the key untouched. -/
theorem C5_scale_heights (st : JsonScadBuilder) (dmin dmax rmin rmax : ℚ)
    (h1 : st.features ≠ [])
    (h2 : st.bound_data_key_name ≠ "")
    (h3 : dmax - dmin ≠ 0)
    (h4 : st.features.all (numBound st.bound_data_key_name) = true) :
    C5Spec st dmin dmax rmin rmax := by
  obtain ⟨he, hrel⟩ := scaleLoop_ok st.bound_data_key_name dmin dmax rmin rmax h3
    st.features (fun g hg => List.all_eq_true.mp h4 g hg)
  constructor
  · simp only [scale_heights, if_neg h1, if_neg h2]
    exact he
  · simp only [scale_heights, if_neg h1, if_neg h2]
    exact hrel

/-- Concrete state for the C5 witness, carrying bound values 5, 0 and
10, plus one feature without the key. -/
def stC5w : JsonScadBuilder :=
  { initState with
      features :=
        [⟨.polygon [[[0, 0]]], [("pop", .num 5)]⟩,
         ⟨.polygon [[[1, 1]]], [("pop", .num 0)]⟩,
         ⟨.polygon [[[2, 2]]], [("pop", .num 10)]⟩,
         ⟨.polygon [[[3, 3]]], [("other", .str "x")]⟩],
      bound_data_key_name := "pop" }

/-- Witness for C5_scale_heights: domain [0,10], range [2,20] maps the
values 5, 0, 10 to the heights 11, 2, 20 and skips the unkeyed
feature. -/
theorem C5_scale_heights_witness :
    (stC5w.features ≠ [] ∧ stC5w.bound_data_key_name ≠ "" ∧
     (10 : ℚ) - 0 ≠ 0 ∧
     stC5w.features.all (numBound stC5w.bound_data_key_name) = true) ∧
    C5Spec stC5w 0 10 2 20 ∧
    scale_heights stC5w (0, 10) (2, 20) =
      ({ stC5w with features :=
          [⟨.polygon [[[0, 0]]], [("pop", .num 11)]⟩,
           ⟨.polygon [[[1, 1]]], [("pop", .num 2)]⟩,
           ⟨.polygon [[[2, 2]]], [("pop", .num 20)]⟩,
           ⟨.polygon [[[3, 3]]], [("other", .str "x")]⟩] }, none) :=
  ⟨⟨by decide, by decide, by norm_num, by decide⟩,
    C5_scale_heights stC5w 0 10 2 20 (by decide) (by decide) (by norm_num) (by decide),
    by norm_num [scale_heights, scaleLoop, getProp, setProp, stC5w, initState]
       decide⟩

/-! ## Identifier binding claim -/

/-- The first-match discipline of one datum of bind_data_by_identifier:
either no feature matches the identifier value and the list is unchanged
(and no error is raised — the function is total), or the list splits as
pre ++ f :: post where nothing in pre matches, f is the FIRST match and
is the only feature assigned, and post is not scanned (returned
untouched). -/
def FirstMatchBind (idKey key : String) (idv v : Value) (fs fs' : List Feature) : Prop :=
  ((∀ f ∈ fs, getProp f.properties idKey ≠ some idv) ∧ fs' = fs) ∨
  (∃ pre f post, fs = pre ++ f :: post ∧
    (∀ g ∈ pre, getProp g.properties idKey ≠ some idv) ∧
    getProp f.properties idKey = some idv ∧
    fs' = pre ++ { f with properties := setProp f.properties key v } :: post)

/-- The inner search loop satisfies the first-match discipline. -/
theorem bindOne_firstMatch (idKey key : String) (idv v : Value) :
    ∀ fs : List Feature,
      FirstMatchBind idKey key idv v fs (bindOne idKey key idv v fs).1 := by
  intro fs
  induction fs with
  | nil => exact Or.inl ⟨by simp, rfl⟩
  | cons f fs ih =>
      by_cases h : getProp f.properties idKey = some idv
      · refine Or.inr ⟨[], f, fs, rfl, by simp, h, ?_⟩
        simp [bindOne, h]
      · rcases ih with ⟨hall, heq⟩ | ⟨pre, g, post, hfs, hpre, hg, heq⟩
        · refine Or.inl ⟨?_, ?_⟩
          · intro g hg
            rcases List.mem_cons.mp hg with rfl | hg'
            · exact h
            · exact hall g hg'
          · simp [bindOne, h, heq]
        · refine Or.inr ⟨f :: pre, g, post, by rw [List.cons_append, hfs],
            ?_, hg, ?_⟩
          · intro g' hg'
            rcases List.mem_cons.mp hg' with rfl | hg''
            · exact h
            · exact hpre g' hg''
          · simp [bindOne, h, heq]

/-- Claim C8 statement: bind_data_by_identifier raises nothing, sets the
active bound-key name regardless of match count, its feature list is the
fold of the per-datum search loop, and every single datum follows the
first-match discipline. -/
def C8Spec (st : JsonScadBuilder) (key : String) (data : List (Value × Value))
    (idKey : String) : Prop :=
  (bind_data_by_identifier st key data idKey).2 = none ∧
  (bind_data_by_identifier st key data idKey).1.bound_data_key_name = key ∧
  (bind_data_by_identifier st key data idKey).1.features =
    (bindAllLoop idKey key data st.features).1 ∧
  ∀ (fs : List Feature) (idv v : Value),
    FirstMatchBind idKey key idv v fs (bindOne idKey key idv v fs).1

/-- Claim C8: on a non-empty feature sequence, bind_data_by_identifier
assigns each datum to the first matching feature only, silently skips a
datum with no match, never raises, and sets bound_data_key_name even
when nothing matched. -/
theorem C8_bind_by_identifier (st : JsonScadBuilder) (key : String)
    (data : List (Value × Value)) (idKey : String)
    (h : st.features ≠ []) : C8Spec st key data idKey := by
  refine ⟨?_, ?_, ?_, fun fs idv v => bindOne_firstMatch idKey key idv v fs⟩
  · simp [bind_data_by_identifier, h]
  · simp [bind_data_by_identifier, h]
  · simp [bind_data_by_identifier, h]

/-- Concrete two-feature state for the C8 witness. -/
def stC8w : JsonScadBuilder :=
  { initState with
      features :=
        [⟨.polygon [[[0, 0]]], [("name", .str "a")]⟩,
         ⟨.polygon [[[1, 1]]], [("name", .str "b")]⟩] }

/-- Concrete state with a duplicated identifier value, to exhibit the
first-match-wins behavior. -/
def stC8d : JsonScadBuilder :=
  { initState with
      features :=
        [⟨.polygon [[[0, 0]]], [("name", .str "a")]⟩,
         ⟨.polygon [[[1, 1]]], [("name", .str "a")]⟩] }

/-- The datum list for the C8 witness: one matching pair and one pair
matching no feature. -/
def dataC8w : List (Value × Value) := [(.str "b", .num 7), (.str "zz", .num 9)]

/-- Witness for C8_bind_by_identifier: the matching pair binds feature
"b", the non-matching pair changes nothing and raises nothing, the key
name is set, and with duplicate identifiers only the first feature is
assigned. -/
theorem C8_bind_by_identifier_witness :
    stC8w.features ≠ [] ∧ C8Spec stC8w "pop" dataC8w "name" ∧
    bind_data_by_identifier stC8w "pop" dataC8w "name" =
      ({ stC8w with
          bound_data_key_name := "pop",
          features :=
            [⟨.polygon [[[0, 0]]], [("name", .str "a")]⟩,
             ⟨.polygon [[[1, 1]]], [("name", .str "b"), ("pop", .num 7)]⟩] }, none) ∧
    bind_data_by_identifier stC8d "pop" [(.str "a", .num 1)] "name" =
      ({ stC8d with
          bound_data_key_name := "pop",
          features :=
            [⟨.polygon [[[0, 0]]], [("name", .str "a"), ("pop", .num 1)]⟩,
             ⟨.polygon [[[1, 1]]], [("name", .str "a")]⟩] }, none) :=
  ⟨by decide, C8_bind_by_identifier stC8w "pop" dataC8w "name" (by decide),
    by decide, by decide⟩

/-! ## Frame conditions of Simplifier and Transformer -/

/-- Frame relation on the ring list of one polygon: only ring 0 may
change — the ring count is preserved and every interior ring (the tail)
is identical. -/
def ringsFrame (rs rs' : PolyRings) : Prop :=
  rs'.length = rs.length ∧ rs'.tail = rs.tail

/-- Frame relation on one feature: properties untouched, geometry tag
preserved, only ring 0 of a Polygon and of each constituent polygon of a
MultiPolygon may change, any other geometry passed through untouched. -/
def FrameRel (f f' : Feature) : Prop :=
  f'.properties = f.properties ∧
  match f.geometry, f'.geometry with
  | .polygon rs, .polygon rs' => ringsFrame rs rs'
  | .multiPolygon ps, .multiPolygon ps' => List.Forall₂ ringsFrame ps ps'
  | .other t, g' => g' = .other t
  | _, _ => False

theorem ringsFrame_refl (rs : PolyRings) : ringsFrame rs rs := ⟨rfl, rfl⟩

theorem frameRel_refl (f : Feature) : FrameRel f f := by
  refine ⟨rfl, ?_⟩
  cases hg : f.geometry with
  | polygon rs => simp [ringsFrame_refl]
  | multiPolygon ps => exact List.forall₂_same.mpr fun p _ => ringsFrame_refl p
  | other t => rfl

theorem forall2_frameRel_refl (fs : List Feature) :
    List.Forall₂ FrameRel fs fs :=
  List.forall₂_same.mpr fun f _ => frameRel_refl f

/-- The MultiPolygon loop of simplify touches only ring 0 of each
constituent (also when it stops early on an empty constituent). -/
theorem simplifyPolys_frame (reduce : LRing → LRing) :
    ∀ ps : List PolyRings,
      List.Forall₂ ringsFrame ps (simplifyPolys reduce ps).1 := by
  intro ps
  induction ps with
  | nil => exact List.Forall₂.nil
  | cons p ps ih =>
      match p with
      | [] =>
          simp only [simplifyPolys]
          exact List.forall₂_same.mpr fun q _ => ringsFrame_refl q
      | r0 :: rest =>
          simp only [simplifyPolys]
          exact List.Forall₂.cons ⟨by simp, rfl⟩ ih

/-- One step of simplify respects the frame relation. -/
theorem simplifyFeature_frame (reduce : LRing → LRing) (f : Feature) :
    FrameRel f (simplifyFeature reduce f).1 := by
  unfold simplifyFeature FrameRel
  cases hg : f.geometry with
  | polygon rs =>
      cases rs with
      | nil => simp [hg, ringsFrame_refl]
      | cons r0 rest => exact ⟨rfl, by simp [hg, ringsFrame]⟩
  | multiPolygon ps => exact ⟨rfl, by simp [hg, simplifyPolys_frame]⟩
  | other t => simp [hg]

/-- The simplify loop respects the frame relation, both on success and
when it stops early. -/
theorem simplifyLoop_frame (reduce : LRing → LRing) :
    ∀ fs : List Feature,
      List.Forall₂ FrameRel fs (simplifyLoop reduce fs).1 := by
  intro fs
  induction fs with
  | nil => exact List.Forall₂.nil
  | cons f fs ih =>
      cases h : (simplifyFeature reduce f).2 with
      | some e =>
          simp only [simplifyLoop, h]
          exact List.Forall₂.cons (simplifyFeature_frame reduce f)
            (forall2_frameRel_refl fs)
      | none =>
          simp only [simplifyLoop, h]
          exact List.Forall₂.cons (simplifyFeature_frame reduce f) ih

/-- A successful transform step respects the frame relation. -/
theorem transformFeature_frame (sf : ℚ) (origin : List ℚ) (f f' : Feature)
    (h : transformFeature sf origin f = .ok f') : FrameRel f f' := by
  unfold transformFeature at h
  cases hg : f.geometry with
  | polygon rs =>
      cases rs with
      | nil => simp [hg] at h
      | cons r0 rest =>
          cases hr : transformRing sf origin r0 with
          | error e => simp [hg, hr, Except.map] at h
          | ok r0' =>
              simp only [hg, hr, Except.map, Except.ok.injEq] at h
              subst h
              exact ⟨rfl, by simp [hg, ringsFrame]⟩
  | multiPolygon ps =>
      cases ps with
      | nil =>
          simp only [hg, Except.ok.injEq] at h
          subst h
          exact frameRel_refl f
      | cons p ps =>
          cases p with
          | nil => simp [hg] at h
          | cons r rs => simp [hg] at h
  | other t =>
      simp only [hg, Except.ok.injEq] at h
      subst h
      exact frameRel_refl f

/-- The transform loop respects the frame relation, both on success and
when it stops early. -/
theorem transformLoop_frame (sf : ℚ) (origin : List ℚ) :
    ∀ fs : List Feature,
      List.Forall₂ FrameRel fs (transformLoop sf origin fs).1 := by
  intro fs
  induction fs with
  | nil => exact List.Forall₂.nil
  | cons f fs ih =>
      cases h : transformFeature sf origin f with
      | ok f' =>
          simp only [transformLoop, h]
          exact List.Forall₂.cons (transformFeature_frame sf origin f f' h) ih
      | error e =>
          simp only [transformLoop, h]
          exact List.Forall₂.cons (frameRel_refl f) (forall2_frameRel_refl fs)

/-- Claim C9: simplify and transform modify at most ring 0 of each
Polygon and of each constituent polygon of each MultiPolygon; interior
rings are passed through untouched, features with any other geometry tag
are left entirely unchanged, and no properties are modified — for every
state, every reduction routine and every transform argument, including
the runs that stop early on an error. -/
theorem C9_frame_effects (st : JsonScadBuilder) (reduce : LRing → LRing)
    (origin : List ℚ) (sf : ℚ) :
    List.Forall₂ FrameRel st.features (simplify st reduce).1.features ∧
    List.Forall₂ FrameRel st.features (transform st origin sf).1.features := by
  constructor
  · by_cases hemp : st.features = []
    · simp only [simplify, if_pos hemp]
      exact forall2_frameRel_refl st.features
    · simp only [simplify, if_neg hemp]
      exact simplifyLoop_frame reduce st.features
  · by_cases hemp : st.features = []
    · simp only [transform, if_pos hemp]
      exact forall2_frameRel_refl st.features
    · simp only [transform, if_neg hemp]
      exact transformLoop_frame sf origin st.features

/-! ## Precondition handling (all-or-nothing) -/

/-- Claim C3 as stated is false: on an empty feature sequence, transform
does abort with the StateError, but it has ALREADY overwritten origin and
scale_factor; likewise bind_data has already overwritten
bound_data_key_name.  The initial state has origin [], scale_factor 1 and
an empty key name; after the failing calls they are [1, 2], 3 and
"pop". -/
theorem C3_counterexample :
    (transform initState [1, 2] 3).2 = some (.stateError empFeatMsg) ∧
    (transform initState [1, 2] 3).1.origin = [1, 2] ∧
    (transform initState [1, 2] 3).1.scale_factor = 3 ∧
    initState.origin = [] ∧ initState.scale_factor = 1 ∧
    (transform initState [1, 2] 3).1.origin ≠ initState.origin ∧
    (bind_data initState "pop" []).2 = some (.stateError empFeatMsg) ∧
    (bind_data initState "pop" []).1.bound_data_key_name = "pop" ∧
    initState.bound_data_key_name = "" ∧
    (bind_data initState "pop" []).1.bound_data_key_name ≠
      initState.bound_data_key_name := by
  refine ⟨rfl, rfl, rfl, rfl, rfl, by decide, rfl, rfl, rfl, by decide⟩

/-- Claim C3 (amended): on a precondition failure every stage leaves the
FEATURE SEQUENCE untouched and raises the StateError, and simplify and
the emitter mutate nothing at all — but transform has already stored
origin and scale_factor, and both data binders have already stored
bound_data_key_name, before their precondition check runs. -/
def C3Spec (st : JsonScadBuilder) (origin : List ℚ) (sf : ℚ) (key idKey : String)
    (data : List Value) (pairs : List (Value × Value)) (reduce : LRing → LRing)
    (dom rng : ℚ × ℚ) : Prop :=
  (st.features = [] →
    ((transform st origin sf).1.features = st.features ∧
     (transform st origin sf).2 = some (.stateError empFeatMsg) ∧
     (transform st origin sf).1.origin = origin ∧
     (transform st origin sf).1.scale_factor = sf) ∧
    ((bind_data st key data).1.features = st.features ∧
     (bind_data st key data).2 = some (.stateError empFeatMsg) ∧
     (bind_data st key data).1.bound_data_key_name = key) ∧
    ((bind_data_by_identifier st key pairs idKey).1.features = st.features ∧
     (bind_data_by_identifier st key pairs idKey).2 = some (.stateError empFeatMsg) ∧
     (bind_data_by_identifier st key pairs idKey).1.bound_data_key_name = key) ∧
    simplify st reduce = (st, some (.stateError empFeatMsg)) ∧
    emitBlocks st = .error (.stateError empFeatMsg)) ∧
  ((st.features = [] ∨ st.bound_data_key_name = "") →
    (scale_heights st dom rng).1 = st ∧
    ((scale_heights st dom rng).2).isSome = true)

/-- Claim C3 (amended), proved for every state and every argument
combination. -/
theorem C3_all_or_nothing (st : JsonScadBuilder) (origin : List ℚ) (sf : ℚ)
    (key idKey : String) (data : List Value) (pairs : List (Value × Value))
    (reduce : LRing → LRing) (dom rng : ℚ × ℚ) :
    C3Spec st origin sf key idKey data pairs reduce dom rng := by
  constructor
  · intro hemp
    refine ⟨⟨?_, ?_, ?_, ?_⟩, ⟨?_, ?_, ?_⟩, ⟨?_, ?_, ?_⟩, ?_, ?_⟩ <;>
      simp [transform, bind_data, bind_data_by_identifier, simplify,
        emitBlocks, hemp]
  · intro hor
    by_cases hemp : st.features = []
    · constructor
      · simp [scale_heights, hemp]
      · simp [scale_heights, hemp]
    · have hkey : st.bound_data_key_name = "" := hor.resolve_left hemp
      constructor
      · simp [scale_heights, hemp, hkey]
      · simp [scale_heights, hemp, hkey]

/-- Witness for C3_all_or_nothing: the freshly initialized builder has an
empty feature sequence and an empty bound key. -/
theorem C3_all_or_nothing_witness :
    (initState.features = [] ∧ initState.bound_data_key_name = "") ∧
    C3Spec initState [1, 2] 3 "pop" "id" [] [] id (5, 5) (0, 1) :=
  ⟨⟨by decide, by decide⟩,
    C3_all_or_nothing initState [1, 2] 3 "pop" "id" [] [] id (5, 5) (0, 1)⟩

/-! ## Emitter claims -/

/-- The exterior rings the Emitter must print, one per Polygon and one
per constituent polygon of each MultiPolygon, in order. -/
def ring0sF (f : Feature) : List LRing :=
  match f.geometry with
  | .polygon rs => [rs.headI]
  | .multiPolygon ps => ps.map (fun p => p.headI)
  | .other _ => []

/-- The heights the Emitter must print for one feature, one per emitted
block of that feature. -/
def heightsOfF (key : String) (f : Feature) : List Value :=
  match f.geometry with
  | .polygon _ => [heightFor key f.properties]
  | .multiPolygon ps => ps.map (fun _ => heightFor key f.properties)
  | .other _ => []

/-- Boolean well-formedness for emission: every polygon has at least one
ring (otherwise the source raises IndexError reading ring 0). -/
def wfFeature (f : Feature) : Bool :=
  match f.geometry with
  | .polygon rs => !rs.isEmpty
  | .multiPolygon ps => ps.all (fun p => !p.isEmpty)
  | .other _ => true

theorem range1_append (s m n : Nat) :
    List.range' s m ++ List.range' (s + m) n = List.range' s (m + n) := by
  have h := List.range'_append s m n 1
  rw [Nat.one_mul] at h
  rw [Nat.add_comm n m] at h
  exact h

/-- The MultiPolygon emission loop with color mode off: one block per
constituent, sequential indices from c, ring 0 and the feature height in
each block. -/
theorem emitPolys_ok (key : String) (props : List (String × Value)) :
    ∀ (ps : List PolyRings) (c : Nat), (∀ p ∈ ps, p ≠ []) →
      ∃ bs, emitPolys false key props ps c = .ok (bs, c + bs.length) ∧
        bs.map Block.idx = List.range' c bs.length ∧
        bs.map Block.ring = ps.map (fun p => p.headI) ∧
        bs.map Block.height = ps.map (fun _ => heightFor key props) := by
  intro ps
  induction ps with
  | nil => exact fun c _ => ⟨[], rfl, rfl, rfl, rfl⟩
  | cons p ps ih =>
      intro c hp
      match p, hp p (List.mem_cons_self _ _) with
      | r0 :: rest, _ =>
          obtain ⟨bs, hbs, hidx, hring, hh⟩ :=
            ih (c + 1) (fun q hq => hp q (List.mem_cons_of_mem _ hq))
          refine ⟨⟨c, r0, heightFor key props⟩ :: bs, ?_, ?_, ?_, ?_⟩
          · have hl : c + 1 + bs.length =
                c + (⟨c, r0, heightFor key props⟩ :: bs : List Block).length := by
              simp
              omega
            rw [← hl]
            simp only [emitPolys, emitShape, Bool.false_eq_true, if_false, hbs]
            rfl
          · exact congrArg (List.cons c) hidx
          · exact congrArg (List.cons r0) hring
          · exact congrArg (List.cons (heightFor key props)) hh

/-- Emission of one feature with color mode off. -/
theorem emitFeature_ok (key : String) (f : Feature) (c : Nat)
    (hf : wfFeature f = true) :
    ∃ bs, emitFeature false key c f = .ok (bs, c + bs.length) ∧
      bs.map Block.idx = List.range' c bs.length ∧
      bs.map Block.ring = ring0sF f ∧
      bs.map Block.height = heightsOfF key f := by
  unfold wfFeature at hf
  cases hg : f.geometry with
  | polygon rs =>
      rw [hg] at hf
      match rs, hf with
      | r0 :: rest, _ =>
          refine ⟨[⟨c, r0, heightFor key f.properties⟩], ?_, rfl, ?_, ?_⟩
          · simp only [emitFeature, hg, emitShape, Bool.false_eq_true, if_false]
            rfl
          · simp [ring0sF, hg]
          · simp [heightsOfF, hg]
  | multiPolygon ps =>
      rw [hg] at hf
      have hps : ∀ p ∈ ps, p ≠ [] := by
        intro p hp
        have := List.all_eq_true.mp hf p hp
        simpa [List.isEmpty_iff] using this
      obtain ⟨bs, hbs, hidx, hring, hh⟩ := emitPolys_ok key f.properties ps c hps
      refine ⟨bs, ?_, hidx, ?_, ?_⟩
      · simp only [emitFeature, hg]
        exact hbs
      · rw [hring]; simp [ring0sF, hg]
      · rw [hh]; simp [heightsOfF, hg]
  | other t =>
      refine ⟨[], ?_, rfl, ?_, ?_⟩
      · simp only [emitFeature, hg]
        rfl
      · simp [ring0sF, hg]
      · simp [heightsOfF, hg]

/-- The emission loop over all features with color mode off. -/
theorem emitList_ok (key : String) :
    ∀ (fs : List Feature) (c : Nat), (∀ f ∈ fs, wfFeature f = true) →
      ∃ bs, emitList false key fs c = .ok bs ∧
        bs.map Block.idx = List.range' c bs.length ∧
        bs.map Block.ring = fs.flatMap ring0sF ∧
        bs.map Block.height = fs.flatMap (heightsOfF key) := by
  intro fs
  induction fs with
  | nil => exact fun c _ => ⟨[], rfl, rfl, rfl, rfl⟩
  | cons f fs ih =>
      intro c hw
      obtain ⟨bs1, hbs1, hidx1, hring1, hh1⟩ :=
        emitFeature_ok key f c (hw f (List.mem_cons_self _ _))
      obtain ⟨bs2, hbs2, hidx2, hring2, hh2⟩ :=
        ih (c + bs1.length) (fun g hg => hw g (List.mem_cons_of_mem _ hg))
      refine ⟨bs1 ++ bs2, ?_, ?_, ?_, ?_⟩
      · simp only [emitList, hbs1, Except.instMonad, Except.bind, bind, pure,
          Except.pure, hbs2]
      · rw [List.map_append, hidx1, hidx2, List.length_append]
        exact range1_append c bs1.length bs2.length
      · rw [List.map_append, hring1, hring2, List.flatMap_cons]
      · rw [List.map_append, hh1, hh2, List.flatMap_cons]

/-- Claim C4 statement: with color mode off the emitted blocks carry the
indices 0, 1, 2, ... in order (so the identifiers points_0, points_1, ...
are unique and monotonically increasing across the whole output), their
rings are exactly the exterior rings of all polygons in feature order
then sub-polygon order, their heights follow heightFor, and with no
bound key every height is the default 2. -/
def C4Spec (st : JsonScadBuilder) : Prop :=
  ∃ bs, emitBlocks st = .ok bs ∧
    bs.map Block.idx = List.range bs.length ∧
    bs.map Block.ring = st.features.flatMap ring0sF ∧
    bs.map Block.height = st.features.flatMap (heightsOfF st.bound_data_key_name) ∧
    (st.bound_data_key_name = "" → ∀ b ∈ bs, b.height = .num 2)

/-- Claim C4: deterministic emission with color mode off. -/
theorem C4_emitter (st : JsonScadBuilder)
    (h1 : st.features ≠ [])
    (h2 : st.is_colored = false)
    (h3 : st.features.all wfFeature = true) :
    C4Spec st := by
  obtain ⟨bs, hbs, hidx, hring, hh⟩ :=
    emitList_ok st.bound_data_key_name st.features 0
      (fun f hf => List.all_eq_true.mp h3 f hf)
  refine ⟨bs, ?_, ?_, hring, hh, ?_⟩
  · simp only [emitBlocks, if_neg h1, h2]
    exact hbs
  · rw [hidx, List.range_eq_range']
  · intro hkey b hb
    have hmem : b.height ∈ bs.map Block.height := List.mem_map_of_mem _ hb
    rw [hh, hkey] at hmem
    obtain ⟨f, -, hv⟩ := List.mem_flatMap.mp hmem
    unfold heightsOfF at hv
    cases hg : f.geometry with
    | polygon rs =>
        rw [hg] at hv
        simp only [List.mem_singleton] at hv
        rw [hv]
        rfl
    | multiPolygon ps =>
        rw [hg] at hv
        obtain ⟨p, -, hv⟩ := List.mem_map.mp hv
        rw [← hv]
        rfl
    | other t =>
        rw [hg] at hv
        cases hv

/-- The concrete FeatureCollection of the specification example: one
Polygon with a ring of 4 points and one MultiPolygon with two
sub-polygons, no bound key set. -/
def stC4w : JsonScadBuilder :=
  { initState with
      features :=
        [⟨.polygon [[[0, 0], [1, 0], [1, 1], [0, 1]]], []⟩,
         ⟨.multiPolygon [[[[2, 2], [3, 2], [3, 3]]],
                         [[[4, 4], [5, 4], [5, 5]]]], []⟩] }

/-- Witness for C4_emitter: exactly 3 blocks, identifiers points_0,
points_1, points_2 in order, every height the default 2. -/
theorem C4_emitter_witness :
    (stC4w.features ≠ [] ∧ stC4w.is_colored = false ∧
     stC4w.features.all wfFeature = true) ∧
    C4Spec stC4w ∧
    emitBlocks stC4w = .ok
      [⟨0, [[0, 0], [1, 0], [1, 1], [0, 1]], .num 2⟩,
       ⟨1, [[2, 2], [3, 2], [3, 3]], .num 2⟩,
       ⟨2, [[4, 4], [5, 4], [5, 5]], .num 2⟩] :=
  ⟨⟨by decide, rfl, by decide⟩,
    C4_emitter stC4w (by decide) rfl (by decide), by rfl⟩

/-- Claim C6: with color preview mode on, the Emitter does not emit a
color statement from COLOR_BANK and complete — it fails with
AttributeError, because the source reads self.color_bank while the class
constant is named COLOR_BANK.  The crash happens at the first polygon
block, before random.choice runs. -/
theorem C6_color_mode_crash :
    write_scad_file { initState with
        features := [⟨.polygon [[[0, 0], [1, 0], [0, 1]]], []⟩],
        is_colored := true } = .error (.attributeError "color_bank") ∧
    write_scad_file { initState with
        features := [⟨.multiPolygon [[[[0, 0], [1, 0], [0, 1]]]], []⟩],
        is_colored := true } = .error (.attributeError "color_bank") := by
  exact ⟨rfl, rfl⟩
